import Mathlib

/-!
Shallow embedding of the playground e2e test utilities
(`playground/testUtils.ts`) and of the jest Playwright environment, with
theorems checking the natural-language specification against them.

Strings are modelled by Lean `String`; JS numbers that only ever hold
digit-string values are modelled by `Nat`; the ambient environment flags
(`VITE_TEST_BUILD`, `CI`) are explicit `Bool` parameters; the filesystem
is an association list from file name to contents; effectful helpers
return explicit traces or result values in place of side effects.
-/

namespace TestUtils

/-- Substring containment, modelling JS `haystack.indexOf(needle) > -1`
(and `expect(haystack).toMatch(needle)` for a plain-string argument,
which also tests substring containment). -/
def strContains (haystack needle : String) : Bool :=
  decide (needle.toList <:+: haystack.toList)

/-! ### Port table (`ports`) -/

/-- The static port table: suite identifier to reserved port.
The source prefixes it with the comment "make sure these ports are unique". -/
def ports : List (String × Nat) :=
  [("cli", 9510),
   ("cli-module", 9511),
   ("legacy/ssr", 9520),
   ("lib", 9521),
   ("optimize-missing-deps", 9522),
   ("ssr-deps", 9600),
   ("ssr-html", 9601),
   ("ssr-pug", 9602),
   ("ssr-react", 9603),
   ("ssr-vue", 9604),
   ("ssr-webworker", 9605),
   ("css/postcss-caching", 5005),
   ("css/postcss-plugins-different-dir", 5006)]

/-! ### Color helpers (`componentToHex`, `rgbToHex`, `getColor`) -/

/-- JS regex `\d`: the ASCII digits. -/
def jsDigit (c : Char) : Bool :=
  '0' ≤ c && c ≤ '9'

/-- JS regex `\s`: the ECMAScript WhiteSpace and LineTerminator characters. -/
def jsWhitespace (c : Char) : Bool :=
  c = '\t' || c = '\n' || c = Char.ofNat 11 || c = Char.ofNat 12 ||
  c = '\r' || c = ' ' || c = Char.ofNat 0xa0 || c = Char.ofNat 0x1680 ||
  (0x2000 ≤ c.toNat && c.toNat ≤ 0x200a) || c = Char.ofNat 0x2028 ||
  c = Char.ofNat 0x2029 || c = Char.ofNat 0x202f || c = Char.ofNat 0x205f ||
  c = Char.ofNat 0x3000 || c = Char.ofNat 0xfeff

/-- Maximal run of digits at the head of the list, with the remainder. -/
def takeDigitsAux : List Char → List Char × List Char
  | [] => ([], [])
  | c :: cs =>
    if jsDigit c then
      let (ds, rest) := takeDigitsAux cs
      (c :: ds, rest)
    else ([], c :: cs)

/-- Greedy `\d+`: at least one digit, maximal munch. Since in the pattern
every `\d+` is followed by a non-digit (`,` or `)`), greedy maximal-munch
matching agrees with the backtracking regex semantics. -/
def takeDigits (l : List Char) : Option (List Char × List Char) :=
  match takeDigitsAux l with
  | ([], _) => none
  | (ds, rest) => some (ds, rest)

/-- Greedy `\s*`. Since each `\s*` in the pattern is followed by `\d`, and
whitespace and digits are disjoint, maximal munch agrees with the regex. -/
def dropJsSpaces : List Char → List Char
  | [] => []
  | c :: cs => if jsWhitespace c then dropJsSpaces cs else c :: cs

/-- Attempt to match the regex `rgb\((\d+),\s*(\d+),\s*(\d+)\)` at the head
of the list, returning the three captured digit groups. -/
def tryMatchRGB (s : List Char) : Option (List Char × List Char × List Char) :=
  match s with
  | 'r' :: 'g' :: 'b' :: '(' :: rest =>
    match takeDigits rest with
    | none => none
    | some (d1, rest) =>
      match rest with
      | ',' :: rest =>
        match takeDigits (dropJsSpaces rest) with
        | none => none
        | some (d2, rest) =>
          match rest with
          | ',' :: rest =>
            match takeDigits (dropJsSpaces rest) with
            | none => none
            | some (d3, rest) =>
              match rest with
              | ')' :: _ => some (d1, d2, d3)
              | _ => none
          | _ => none
      | _ => none
  | _ => none

/-- Leftmost match of the unanchored regex, as JS `rgb.match(...)` performs:
try each start position from the left. -/
def findRGBMatch : List Char → Option (List Char × List Char × List Char)
  | [] => none
  | c :: cs =>
    match tryMatchRGB (c :: cs) with
    | some r => some r
    | none => findRGBMatch cs

/-- JS `parseInt(ds, 10)` on a nonempty all-digit string: its decimal value. -/
def parseIntDec (ds : List Char) : Nat :=
  ds.foldl (fun acc c => acc * 10 + (c.toNat - '0'.toNat)) 0

/-- Source `componentToHex`: `c.toString(16)`, left-padded with `'0'` when a
single character. `Nat.toDigits 16` produces the same lowercase hex digits
as JS `toString(16)` on a nonnegative integer. -/
def componentToHex (c : Nat) : String :=
  let hex := String.mk (Nat.toDigits 16 c)
  if hex.length = 1 then "0" ++ hex else hex

/-- Source `rgbToHex`: match `rgb\((\d+),\s*(\d+),\s*(\d+)\)` anywhere in the
input; on a match, concatenate the hex forms of the three components behind
`#`; otherwise return the fixed fallback `#000000`. -/
def rgbToHex (rgb : String) : String :=
  match findRGBMatch rgb.toList with
  | some (rs, gs, bs) =>
    "#" ++ componentToHex (parseIntDec rs) ++ componentToHex (parseIntDec gs)
      ++ componentToHex (parseIntDec bs)
  | none => "#000000"

/-- Modelled from the spec: the name-to-hex color table imported from the
`css-color-names` dependency, whose source is not part of this repository.
A representative subset in the package's alphabetical key order, including
every entry the claims exercise (in particular `black` / `#000000` and
`white` / `#ffffff`) and the duplicate-hex pairs aqua/cyan and
fuchsia/magenta. -/
def colors : List (String × String) :=
  [("aqua", "#00ffff"),
   ("black", "#000000"),
   ("blue", "#0000ff"),
   ("cyan", "#00ffff"),
   ("fuchsia", "#ff00ff"),
   ("gray", "#808080"),
   ("green", "#008000"),
   ("lime", "#00ff00"),
   ("magenta", "#ff00ff"),
   ("maroon", "#800000"),
   ("navy", "#000080"),
   ("olive", "#808000"),
   ("orange", "#ffa500"),
   ("purple", "#800080"),
   ("red", "#ff0000"),
   ("silver", "#c0c0c0"),
   ("teal", "#008080"),
   ("white", "#ffffff"),
   ("yellow", "#ffff00")]

/-- Lookup in `hexToNameMap`, the inversion of `colors` built by the source
with `hexToNameMap[colors[color]] = color` over the keys in order: for a
duplicated hex value the later name overwrites the earlier one, so the
lookup returns the last matching entry. -/
def hexToName (hex : String) : Option String :=
  colors.foldl (fun acc p => if p.2 = hex then some p.1 else acc) none

/-- Source `getColor`, with the browser interaction stripped to its pure
core: the element's computed `color` string is the argument, and the result
is `hexToNameMap[rgbToHex(rgb)] ?? rgb`. -/
def getColor (rgb : String) : String :=
  (hexToName (rgbToHex rgb)).getD rgb

/-! ### Polling helper (`untilUpdated`) -/

/-- Observable trace of one `untilUpdated` call: how many times the getter
was invoked, how many 50ms sleeps occurred, how many `expect(...).toMatch`
assertions ran, and `some actual` when the final assertion failed (the
test-framework failure raised on the last attempt without a match). -/
structure UUTrace where
  polls : Nat
  sleeps : Nat
  asserts : Nat
  failed : Option String
deriving DecidableEq, Repr

/-- The `for (let tries = 0; tries < maxTries; tries++)` loop body of
`untilUpdated`. `tries` and `sleeps` are the loop counter (equal to the
number of polls so far, the loop having started at 0) and the sleep count;
`fuel` is the number of remaining iterations `maxT - tries`. Each iteration
computes `actual = (await poll()) ?? ''`; if it contains `expected` the
assertion passes and the loop breaks; otherwise on the last allowed try the
assertion fails; otherwise the loop sleeps 50ms and continues. -/
def untilUpdatedGo (poll : Nat → Option String) (expected : String)
    (maxT : Nat) : Nat → Nat → Nat → UUTrace
  | tries, sleeps, 0 => ⟨tries, sleeps, 0, none⟩
  | tries, sleeps, fuel + 1 =>
    let actual := (poll tries).getD ""
    if strContains actual expected then ⟨tries + 1, sleeps, 1, none⟩
    else if tries = maxT - 1 then ⟨tries + 1, sleeps, 1, some actual⟩
    else untilUpdatedGo poll expected maxT (tries + 1) (sleeps + 1) fuel

/-- The try budget `process.env.CI ? 100 : 50`. -/
def maxTries (ci : Bool) : Nat :=
  if ci then 100 else 50

/-- Source `untilUpdated`: skip entirely when `isBuild && !runInBuild`,
otherwise run the polling loop. The getter is modelled as a function of the
attempt index; a `none` result models `undefined`/`null`, coalesced to the
empty string by `?? ''`. -/
def untilUpdated (isBuild runInBuild ci : Bool) (poll : Nat → Option String)
    (expected : String) : UUTrace :=
  if isBuild && !runInBuild then ⟨0, 0, 0, none⟩
  else untilUpdatedGo poll expected (maxTries ci) 0 0 (maxTries ci)

/-! ### File helpers (`editFile`, `listAssets`, `findAssetFile`) -/

/-- JS `fs.writeFileSync`: overwrite the file when present, create it
otherwise. -/
def fsWrite (fs : List (String × String)) (name content : String) :
    List (String × String) :=
  if (fs.lookup name).isSome then
    fs.map (fun p => if p.1 = name then (name, content) else p)
  else fs ++ [(name, content)]

/-- Result of `editFile`: on the skip path or after a successful edit, the
resulting filesystem with the number of reads and writes performed;
`enoent` when `readFileSync` throws on a missing file. -/
inductive EditResult where
  | ok (fs : List (String × String)) (reads writes : Nat)
  | enoent
deriving DecidableEq

/-- Source `editFile`: a no-op returning immediately when
`isBuild && !runInBuild`; otherwise read the file, apply the replacer, and
write the result back. The filesystem is keyed by resolved file name. -/
def editFile (isBuild : Bool) (fs : List (String × String)) (filename : String)
    (replacer : String → String) (runInBuild : Bool) : EditResult :=
  if isBuild && !runInBuild then .ok fs 0 0
  else
    match fs.lookup filename with
    | none => .enoent
    | some content => .ok (fsWrite fs filename (replacer content)) 1 1

/-- Source `listAssets`: `fs.readdirSync` on the assets directory, modelled
as the name components of the directory's (name, contents) entries. -/
def listAssets (assets : List (String × String)) : List String :=
  assets.map Prod.fst

/-- Source `findAssetFile` with the matcher abstracted: find the first file
whose name satisfies `file.match(match)` (truthy), return its contents, or
the empty string when none matches. -/
def findAssetFileBy (assets : List (String × String))
    (matcher : String → Bool) : String :=
  match assets.find? (fun p => matcher p.1) with
  | some p => p.2
  | none => ""

/-- Source `findAssetFile` for a string argument free of regex
metacharacters: JS `file.match(match)` converts the string to a `RegExp`,
which matches anywhere in the file name, so a literal pattern is truthy
exactly when it occurs as a substring of the name. -/
def findAssetFileStr (assets : List (String × String)) (pat : String) :
    String :=
  findAssetFileBy assets (fun file => strContains file pat)

/-- The ECMAScript regex SyntaxCharacter set. A string containing none of
these is turned by the `String.prototype.match` string-to-`RegExp`
conversion into a regex that matches the string literally, anywhere in the
target, so on such strings the substring model of `findAssetFileStr` is
faithful; on strings with a syntax character (for example `"."`) the regex
behaves differently and the model does not apply. -/
def regexSyntaxChar (c : Char) : Bool :=
  c = '^' || c = '$' || c = '\\' || c = '.' || c = '*' || c = '+' ||
  c = '?' || c = '(' || c = ')' || c = '[' || c = ']' ||
  c = Char.ofNat 0x7b || c = Char.ofNat 0x7d || c = '|'

/-- A pattern string free of regex syntax characters: the domain on which
`findAssetFileStr` models `file.match(pat)` exactly. -/
def regexLiteral (pat : String) : Bool :=
  pat.toList.all (fun c => !regexSyntaxChar c)

end TestUtils

namespace PlaywrightEnv

/-- Outcome of `PlaywrightEnvironment.setup` after the base class setup:
`errMissing` when `fs.readFileSync` throws because the `wsEndpoint` file is
absent, `errEmpty` for the explicit `throw new Error('wsEndpoint not
found')` on an empty (falsy) endpoint string, `doneNoBrowser` for the
non-playground early return, `connected ws` when `chromium.connect` is
reached with endpoint `ws`. -/
inductive SetupResult where
  | errMissing
  | errEmpty
  | doneNoBrowser
  | connected (ws : String)
deriving DecidableEq

/-- Source `PlaywrightEnvironment.setup`: read the well-known temp-directory
`wsEndpoint` file (`none` models an absent file, on which `readFileSync`
throws), throw when its contents are falsy (empty), return early for test
paths outside the playground group, and otherwise attempt the browser
connection. -/
def setup (wsFile : Option String) (testPath : String) : SetupResult :=
  match wsFile with
  | none => .errMissing
  | some ws =>
    if ws = "" then .errEmpty
    else if TestUtils.strContains testPath "playground" then .connected ws
    else .doneNoBrowser

end PlaywrightEnv

namespace TestUtils

/-! ## Theorems -/

/-- Helper for the no-match analysis of the polling loop: when no attempt's
result contains the expected substring, the loop runs its remaining `fuel`
iterations (`tries + fuel + 1 = maxT`), sleeping between all but the last,
and ends with the final assertion failing on the last attempt's value. -/
theorem untilUpdatedGo_no_match (poll : Nat → Option String) (expected : String)
    (maxT : Nat)
    (hnever : ∀ n, strContains ((poll n).getD "") expected = false) :
    ∀ fuel tries sleeps, tries + fuel + 1 = maxT →
      untilUpdatedGo poll expected maxT tries sleeps (fuel + 1) =
        ⟨maxT, sleeps + fuel, 1, some ((poll (maxT - 1)).getD "")⟩ := by
  intro fuel
  induction fuel with
  | zero =>
    intro tries sleeps h
    have ht : tries = maxT - 1 := by omega
    subst ht
    simp only [untilUpdatedGo, hnever (maxT - 1), Bool.false_eq_true, if_false,
      if_pos rfl]
    have h2 : maxT - 1 + 1 = maxT := by omega
    simp [h2]
  | succ f ih =>
    intro tries sleeps h
    have hne : ¬ (tries = maxT - 1) := by omega
    rw [untilUpdatedGo]
    simp only [hnever tries, Bool.false_eq_true, if_false, hne, ite_false]
    rw [ih (tries + 1) (sleeps + 1) (by omega)]
    have h3 : sleeps + 1 + f = sleeps + (f + 1) := by omega
    rw [h3]

/-- C1: for a getter that never returns a string containing the expected
substring (and outside the build-mode skip), `untilUpdated` polls exactly
`maxTries` times — 50, or 100 under the CI flag — sleeps between all but
the last attempt, performs exactly one assertion, and that assertion fails
(the `failed` field records the non-matching final value): the failure is
signalled through the test framework's substring assertion, not by a
return value or a distinct error, and the loop terminates. -/
theorem untilUpdated_never_matching (isBuild runInBuild ci : Bool)
    (poll : Nat → Option String) (expected : String)
    (hrun : isBuild = false ∨ runInBuild = true)
    (hnever : ∀ n, strContains ((poll n).getD "") expected = false) :
    untilUpdated isBuild runInBuild ci poll expected =
      ⟨maxTries ci, maxTries ci - 1, 1, some ((poll (maxTries ci - 1)).getD "")⟩ ∧
    strContains ((poll (maxTries ci - 1)).getD "") expected = false ∧
    maxTries ci = (if ci then 100 else 50) := by
  refine ⟨?_, hnever _, rfl⟩
  have hskip : (isBuild && !runInBuild) = false := by
    rcases hrun with h | h <;> simp [h]
  rw [untilUpdated, hskip]
  simp only [Bool.false_eq_true, if_false]
  cases ci
  · show untilUpdatedGo poll expected (maxTries false) 0 0 (49 + 1) = _
    rw [untilUpdatedGo_no_match poll expected (maxTries false) hnever 49 0 0
      (by decide)]
    simp [maxTries]
  · show untilUpdatedGo poll expected (maxTries true) 0 0 (99 + 1) = _
    rw [untilUpdatedGo_no_match poll expected (maxTries true) hnever 99 0 0
      (by decide)]
    simp [maxTries]

/-- Witness for C1 at a concrete never-matching getter. -/
theorem untilUpdated_never_matching_witness :
    untilUpdated false false false (fun _ => some "a") "b" =
      ⟨50, 49, 1, some "a"⟩ := by
  have hA : strContains "a" "b" = false := by decide
  have h := untilUpdated_never_matching false false false
    (fun _ => some "a") "b" (Or.inl rfl) (fun _ => hA)
  exact h.1

/-- C2: under build mode with `runInBuild` left `false`, `untilUpdated`
returns at once for every CI flag, getter and expected string: zero getter
invocations, zero sleeps, zero assertions. -/
theorem untilUpdated_build_skip (ci : Bool) (poll : Nat → Option String)
    (expected : String) :
    untilUpdated true false ci poll expected = ⟨0, 0, 0, none⟩ := rfl

/-- C3: when the getter's very first result already contains the expected
substring (and outside the build-mode skip), `untilUpdated` finishes on the
first attempt: one poll, zero sleeps, one (passing) assertion. -/
theorem untilUpdated_first_match (isBuild runInBuild ci : Bool)
    (poll : Nat → Option String) (expected : String)
    (hrun : isBuild = false ∨ runInBuild = true)
    (hfirst : strContains ((poll 0).getD "") expected = true) :
    untilUpdated isBuild runInBuild ci poll expected = ⟨1, 0, 1, none⟩ := by
  have hskip : (isBuild && !runInBuild) = false := by
    rcases hrun with h | h <;> simp [h]
  rw [untilUpdated, hskip]
  simp only [Bool.false_eq_true, if_false]
  cases ci
  · show untilUpdatedGo poll expected (maxTries false) 0 0 (49 + 1) = _
    simp [untilUpdatedGo, hfirst]
  · show untilUpdatedGo poll expected (maxTries true) 0 0 (99 + 1) = _
    simp [untilUpdatedGo, hfirst]

/-- Witness for C3 at a getter that matches immediately. -/
theorem untilUpdated_first_match_witness :
    untilUpdated false false false (fun _ => some "hello") "ell" =
      ⟨1, 0, 1, none⟩ :=
  untilUpdated_first_match false false false (fun _ => some "hello") "ell"
    (Or.inl rfl) (by decide)

end TestUtils

namespace TestUtils

/-- C4: `rgbToHex` maps `rgb(0, 0, 0)` to `#000000` and
`rgb(255, 255, 255)` to `#ffffff`, and on any input in which the pattern
`rgb\((\d+),\s*(\d+),\s*(\d+)\)` does not match it silently returns the
fixed fallback `#000000`. -/
theorem rgbToHex_spec :
    rgbToHex "rgb(0, 0, 0)" = "#000000" ∧
    rgbToHex "rgb(255, 255, 255)" = "#ffffff" ∧
    ∀ s : String, findRGBMatch s.toList = none → rgbToHex s = "#000000" := by
  refine ⟨by decide, by decide, ?_⟩
  intro s h
  have h' : findRGBMatch s.data = none := h
  simp [rgbToHex, h']

/-- Witness for C4's parse-failure clause at a concrete malformed input. -/
theorem rgbToHex_spec_witness :
    findRGBMatch (String.toList "hello") = none ∧
    rgbToHex "hello" = "#000000" :=
  ⟨by decide, rgbToHex_spec.2.2 "hello" (by decide)⟩

/-- C5: for every computed color string, when the hex form is present in
the inverted color table `getColor` returns the canonical name, and when
it is absent `getColor` returns the raw computed value unchanged. -/
theorem getColor_lookup (rgb : String) :
    (∀ name, hexToName (rgbToHex rgb) = some name → getColor rgb = name) ∧
    (hexToName (rgbToHex rgb) = none → getColor rgb = rgb) := by
  constructor
  · intro name h
    rw [getColor, h]
    rfl
  · intro h
    rw [getColor, h]
    rfl

/-- Witness for C5 at one hex present in the table and one absent. -/
theorem getColor_lookup_witness :
    hexToName (rgbToHex "rgb(255, 255, 255)") = some "white" ∧
    getColor "rgb(255, 255, 255)" = "white" ∧
    hexToName (rgbToHex "rgb(1, 2, 3)") = none ∧
    getColor "rgb(1, 2, 3)" = "rgb(1, 2, 3)" :=
  ⟨by decide, (getColor_lookup "rgb(255, 255, 255)").1 "white" (by decide),
   by decide, (getColor_lookup "rgb(1, 2, 3)").2 (by decide)⟩

/-- C6: for every computed color string in which the `rgb(R, G, B)` pattern
does not match, `getColor` returns the color-table name of the fallback hex
`#000000`, namely `black`, rather than the raw computed value. -/
theorem getColor_fallback_black (s : String)
    (h : findRGBMatch s.toList = none) : getColor s = "black" := by
  have h0 : rgbToHex s = "#000000" := by
    have h' : findRGBMatch s.data = none := h
    simp [rgbToHex, h']
  have h1 : hexToName "#000000" = some "black" := by decide
  rw [getColor, h0, h1]
  rfl

/-- Witness for C6 at the computed value `transparent`. -/
theorem getColor_fallback_black_witness :
    findRGBMatch (String.toList "transparent") = none ∧
    getColor "transparent" = "black" :=
  ⟨by decide, getColor_fallback_black "transparent" (by decide)⟩

/-- C7: under build mode with `runInBuild` left `false`, `editFile` returns
immediately: zero reads, zero writes, and the filesystem — in particular
the target file's contents — unchanged, for every filesystem, filename and
replacer. -/
theorem editFile_build_noop (fs : List (String × String)) (filename : String)
    (replacer : String → String) :
    editFile true fs filename replacer false = .ok fs 0 0 := rfl

/-- C9: in the static port table every two entries have distinct suite
identifiers and distinct port values. -/
theorem ports_values_unique :
    ports.Pairwise (fun p q => p.1 ≠ q.1) ∧
    ports.Pairwise (fun p q => p.2 ≠ q.2) := by
  constructor <;> decide

end TestUtils

namespace PlaywrightEnv

/-- C10: for every test path — playground or not — `setup` fails fatally
when the WebSocket endpoint file is absent and also when its contents are
empty, in both cases before any browser connection is attempted. -/
theorem setup_ws_missing_or_empty (testPath : String) :
    setup none testPath = SetupResult.errMissing ∧
    setup (some "") testPath = SetupResult.errEmpty :=
  ⟨rfl, rfl⟩

end PlaywrightEnv

namespace TestUtils

/-- C8 counterexample: the claim's exact-name reading of a string argument
fails. At the directory `[("foo.css", "X")]` with string argument `"css"`,
no file is named exactly `"css"`, yet `findAssetFile` does not return the
empty string (it returns the contents of `foo.css`, whose name merely
contains the pattern): neither disjunct of the claim's prediction holds. -/
theorem findAssetFile_exact_name_counterexample :
    ¬ ((∃ fc ∈ [("foo.css", "X")], fc.1 = "css" ∧
          findAssetFileStr [("foo.css", "X")] "css" = fc.2) ∨
       ((∀ fc ∈ [("foo.css", "X")], fc.1 ≠ "css") ∧
          findAssetFileStr [("foo.css", "X")] "css" = "")) := by
  decide

/-- C8 amended: `listAssets` returns exactly the names of the files present
in the assets directory, and `findAssetFile` with a string argument free of
regex syntax characters (the domain on which the substring model is exact)
matches it anywhere in the file name — not by exact name — returning the
empty string when no file name contains it, and the contents of the FIRST
file whose name contains it when one does: for any split of the directory
listing into a prefix of non-matching files, a matching file, and a
remainder, the matching file's contents are returned. -/
theorem findAssetFile_pattern_match (assets : List (String × String))
    (pat : String) (_hlit : regexLiteral pat = true) :
    listAssets assets = assets.map Prod.fst ∧
    ((∀ fc ∈ assets, strContains fc.1 pat = false) →
      findAssetFileStr assets pat = "") ∧
    (∀ pre fc post, assets = pre ++ fc :: post →
      (∀ fc' ∈ pre, strContains fc'.1 pat = false) →
      strContains fc.1 pat = true →
      findAssetFileStr assets pat = fc.2) := by
  refine ⟨rfl, ?_, ?_⟩
  · intro h
    have hnone : assets.find? (fun p => strContains p.1 pat) = none := by
      rw [List.find?_eq_none]
      intro p hp
      simp [h p hp]
    rw [findAssetFileStr, findAssetFileBy, hnone]
  · intro pre fc post hsplit hpre hmatch
    have hfind : ∀ l : List (String × String), (∀ fc' ∈ l, strContains fc'.1 pat = false) →
        List.find? (fun p => strContains p.1 pat) (l ++ fc :: post) = some fc := by
      intro l
      induction l with
      | nil =>
        intro _
        exact List.find?_cons_of_pos _ hmatch
      | cons hd tl ih =>
        intro hl
        rw [List.cons_append, List.find?_cons_of_neg, ih]
        · intro fc' hfc'
          exact hl fc' (List.mem_cons_of_mem hd hfc')
        · simp [hl hd (List.mem_cons_self hd tl)]
    rw [findAssetFileStr, findAssetFileBy, hsplit, hfind pre hpre]

/-- Witness for the amended C8 at a three-file directory whose first and
last pattern matches differ, exercising the first-match clause (the first
matching file `b.css` wins over the later match `c.css`) and, at a second
directory, the no-match clause. -/
theorem findAssetFile_pattern_match_witness :
    regexLiteral "css" = true ∧
    findAssetFileStr [("a.js", "1"), ("b.css", "2"), ("c.css", "3")] "css"
      = "2" ∧
    regexLiteral "zzz" = true ∧
    findAssetFileStr [("a.js", "1")] "zzz" = "" :=
  ⟨by decide,
   (findAssetFile_pattern_match
       [("a.js", "1"), ("b.css", "2"), ("c.css", "3")] "css"
       (by decide)).2.2
     [("a.js", "1")] ("b.css", "2") [("c.css", "3")] rfl (by decide)
     (by decide),
   by decide,
   (findAssetFile_pattern_match [("a.js", "1")] "zzz" (by decide)).2.1
     (by decide)⟩

end TestUtils
